import Mathlib

/-!
Verification of the Product Hunt scraper core (scraper.js, contactExtractor.js,
websiteContactExtractor.js and the listing/record pipeline) against its
natural-language specification.  JavaScript string and control-flow behaviour is
embedded shallowly: strings are Lean `String`s manipulated through explicit
character-list operations mirroring the JS methods used by the source
(`split`, `includes`, `endsWith`, `startsWith`, truthiness of strings), and the
page/exception discipline is embedded as a state-and-exception monad counting
open browser pages.
-/

namespace PHScraper

/-! ## JavaScript string primitives (character-list level) -/

/-- `startsWithL hay needle` mirrors JS `hay.startsWith(needle)` on char lists. -/
def startsWithL : List Char → List Char → Bool
  | _, [] => true
  | [], _ :: _ => false
  | a :: as, b :: bs => a = b && startsWithL as bs

/-- `containsSub hay needle` mirrors JS `hay.includes(needle)` (substring test). -/
def containsSub : List Char → List Char → Bool
  | hay, needle =>
    if startsWithL hay needle then true
    else
      match hay with
      | [] => false
      | _ :: t => containsSub t needle

/-- String-level JS `s.startsWith(pre)`. -/
def startsWithStr (s pre : String) : Bool := startsWithL s.toList pre.toList

/-- String-level JS `s.includes(sub)`. -/
def containsStr (s sub : String) : Bool := containsSub s.toList sub.toList

/-- Characters strictly before the first occurrence of `c`: JS `s.split(c)[0]`. -/
def takeBeforeChar (c : Char) (l : List Char) : List Char :=
  l.takeWhile (fun x => x != c)

/-- JS `if (url.endsWith('/')) url = url.slice(0, -1)`. -/
def dropTrailingSlash (l : List Char) : List Char :=
  if l.getLast? = some '/' then l.dropLast else l

/-- Last element of JS `url.split('/')`: everything after the last `'/'`. -/
def lastSegment (l : List Char) : List Char :=
  l.foldl (fun acc c => if c = '/' then [] else acc ++ [c]) []

/-- The cleanup pipeline shared by both handle extractors:
`url.split('?')[0].split('#')[0]` followed by removal of one trailing slash. -/
def stripUrl (l : List Char) : List Char :=
  dropTrailingSlash (takeBeforeChar '#' (takeBeforeChar '?' l))

/-- JS lowercasing used for case-insensitive domain checks. -/
def lowerStr (s : String) : String := String.mk (s.toList.map Char.toLower)

/-- JS `a || b` on strings (empty string is falsy). -/
def jsOr (a b : String) : String := if a = "" then b else a

/-! ## contactExtractor.js: `extractTwitterHandle` (profile mode) -/

/-- Embeds `extractTwitterHandle` from contactExtractor.js: strip query,
fragment and one trailing slash, take the last `/`-separated segment, and
accept it only when non-empty, dot-free and different from the bare domains. -/
def extractTwitterHandle (url : String) : String :=
  if url = "" then ""
  else
    let handle := lastSegment (stripUrl url.toList)
    if handle ≠ [] ∧ handle.contains '.' = false ∧
        handle ≠ "twitter.com".toList ∧ handle ≠ "x.com".toList then
      String.mk handle
    else ""

/-- Modelled from the spec's words for C9 (to be compared with the source
function): the trailing path segment of the stripped URL, empty when that
segment contains a dot or equals the bare domain. -/
def twitterHandleSpec (url : String) : String :=
  let seg := lastSegment (stripUrl url.toList)
  if seg.contains '.' = true ∨ seg = "twitter.com".toList ∨ seg = "x.com".toList then ""
  else String.mk seg

/-! ## websiteContactExtractor.js: `extractSocialHandle` (website mode) -/

/-- Embeds `extractSocialHandle` from websiteContactExtractor.js.  Unlike the
profile-mode extractor it returns the input unchanged when no listed domain
occurs in the URL, and falls back to the stripped URL when the trailing segment
is not a valid handle. -/
def extractSocialHandle (url : String) (domains : List String) : String :=
  if url = "" then ""
  else if (domains.any (fun d => containsStr url d)) = false then url
  else
    let u := stripUrl url.toList
    let handle := lastSegment u
    if handle ≠ [] ∧ handle.contains '.' = false ∧
        (domains.all (fun d => String.mk handle ≠ d)) then
      String.mk handle
    else String.mk u

/-! ## websiteContactExtractor.js: merge of the three per-page passes -/

/-- The `{email, twitter, linkedin, website}` bundle produced by each
extraction pass. -/
structure ContactBundle where
  email : String
  twitter : String
  linkedin : String
  website : String
deriving DecidableEq

/-- Embeds the merge at websiteContactExtractor.js lines 243–248:
`contactPageInfo.f || footerContactInfo.f || initialContactInfo.f || ''`
for each field `f`. -/
def mergedContactInfo (contactPage footer initial : ContactBundle) : ContactBundle :=
  { email := jsOr contactPage.email (jsOr footer.email (jsOr initial.email ""))
    twitter := jsOr contactPage.twitter (jsOr footer.twitter (jsOr initial.twitter ""))
    linkedin := jsOr contactPage.linkedin (jsOr footer.linkedin (jsOr initial.linkedin ""))
    website := jsOr contactPage.website (jsOr footer.website (jsOr initial.website "")) }

/-- Modelled from the spec's words for C2 (to be compared with the merge from
the source): per field, the contact-page value if non-empty, else the footer
value if non-empty, else the initial value. -/
def mergePrecedenceSpec (c f i : String) : String :=
  if c ≠ "" then c else if f ≠ "" then f else i

/-- Page-source email fallback after the merge (websiteContactExtractor.js
lines 251–270): if the merged email is empty, take the first regex match from
the page source that passes the placeholder/size filter. -/
def pageSourceEmailFallback (merged : ContactBundle) (sourceEmails : List String) : ContactBundle :=
  if merged.email = "" then
    let valid := sourceEmails.filter (fun e =>
      containsStr e "example.com" = false &&
      containsStr e "yourdomain.com" = false &&
      containsStr e "domain.com" = false &&
      e.length < 100)
    match valid with
    | [] => merged
    | e :: _ => { merged with email := e }
  else merged

/-! ## scraper.js `getProductDetails`: the 6-strategy website cascade -/

/-- Oracle for one rendered product page: for each strategy, the value its
in-browser scan / navigation produces.  Strategy bodies that run entirely
inside `page.evaluate` are abstracted as the string they return; the parts of
each strategy executed in Node (guards, redirect handling, the bebop.ai
corroboration check, the free-mail filter) are embedded below. -/
structure ProductPage where
  /-- Strategy 1: result of the "visit" call-to-action scan (`''` if none). -/
  visitUrl : String
  /-- Strategy 2: hrefs of `a[href^="https://www.producthunt.com/r/"]` links. -/
  redirectLinks : List String
  /-- Strategy 2: whether following the first redirect link throws. -/
  redirectGotoThrows : Bool
  /-- Strategy 2: the final URL after the redirect navigation. -/
  redirectFinalUrl : String
  /-- Strategy 3: result of the "Get it" call-to-action scan. -/
  getItUrl : String
  /-- Strategy 4: shortest non-social external link found by the scan. -/
  externalUrl : String
  /-- Strategy 5: result of the text-pattern scan (already `https://`-prefixed). -/
  patternUrl : String
  /-- Strategy 5: number of `bebop.ai` matches in `document.body.innerText`. -/
  bebopMentions : Nat
  /-- Strategy 5: `getBoundingClientRect().top` of each `a[href*="bebop.ai"]`. -/
  bebopLinkTops : List Int
  /-- Strategy 6: domains extracted from the email regex over the page text. -/
  emailDomains : List String
deriving DecidableEq

/-- Strategy 1: the explicit "visit" call-to-action scan. -/
def strategy1 (p : ProductPage) : String := p.visitUrl

/-- Strategy 2: follow the first Product Hunt redirect link in a separate page
and keep the final URL unless it resolves back to the source site or the
generic `lu.ma/producthunt` page (or the navigation throws). -/
def strategy2 (p : ProductPage) : String :=
  match p.redirectLinks with
  | [] => ""
  | _ :: _ =>
    if p.redirectGotoThrows then ""
    else if containsStr p.redirectFinalUrl "producthunt.com" ||
        containsStr p.redirectFinalUrl "lu.ma/producthunt" then ""
    else p.redirectFinalUrl

/-- Strategy 3: the "get it / try / download / sign up" call-to-action scan. -/
def strategy3 (p : ProductPage) : String := p.getItUrl

/-- Strategy 4: the shortest external non-social link. -/
def strategy4 (p : ProductPage) : String := p.externalUrl

/-- The bebop.ai corroboration check (scraper.js lines 660–676): fewer than 3
textual mentions is always a false positive; otherwise accept when some
`bebop.ai` link sits in the header area (`rect.top < 300`) or there are more
than 5 mentions. -/
def isBebopRealWebsite (p : ProductPage) : Bool :=
  if p.bebopMentions < 3 then false
  else p.bebopLinkTops.any (fun t => t < 300) || p.bebopMentions > 5

/-- Strategy 5: text-pattern match, guarded by the bebop.ai denylist check. -/
def strategy5 (p : ProductPage) : String :=
  let url := p.patternUrl
  if url = "" then ""
  else if containsStr (lowerStr url) "bebop.ai" then
    if isBebopRealWebsite p then url else ""
  else url

/-- The free-mail providers excluded by strategy 6. -/
def freeMailDomains : List String :=
  ["gmail.com", "yahoo.com", "hotmail.com", "outlook.com",
   "icloud.com", "aol.com", "protonmail.com", "mail.com"]

/-- Strategy 6: derive `https://<domain>` from the first non-free-mail email
domain found on the page. -/
def strategy6 (p : ProductPage) : String :=
  let domains := p.emailDomains.filter
    (fun d => freeMailDomains.all (fun f => containsStr d f = false))
  match domains with
  | [] => ""
  | d :: _ => "https://" ++ d

/-- Strategy result by 1-based index (0 for out-of-range indices). -/
def strategyResult (k : Nat) (p : ProductPage) : String :=
  match k with
  | 1 => strategy1 p
  | 2 => strategy2 p
  | 3 => strategy3 p
  | 4 => strategy4 p
  | 5 => strategy5 p
  | 6 => strategy6 p
  | _ => ""

/-- The cascade of scraper.js lines 456–723: each later strategy runs behind
an `if (!websiteUrl)` guard.  Returns the final `websiteUrl` together with the
1-based indices of the strategies that were invoked. -/
def websiteCascade (p : ProductPage) : String × List Nat :=
  let r1 := strategy1 p
  if r1 ≠ "" then (r1, [1])
  else
    let r2 := strategy2 p
    if r2 ≠ "" then (r2, [1, 2])
    else
      let r3 := strategy3 p
      if r3 ≠ "" then (r3, [1, 2, 3])
      else
        let r4 := strategy4 p
        if r4 ≠ "" then (r4, [1, 2, 3, 4])
        else
          let r5 := strategy5 p
          if r5 ≠ "" then (r5, [1, 2, 3, 4, 5])
          else (strategy6 p, [1, 2, 3, 4, 5, 6])

/-! ## scraper.js `getProductsFromLeaderboard`: the scroll loop -/

/-- One run of the scroll loop (scraper.js lines 260–288).  `h i` is the
`document.body.scrollHeight` observed during iteration `i`; `hInit` is the
height read before the loop.  Fuel counts the remaining iterations allowed by
`scrollCount < maxScrolls`; the function returns the final `scrollCount`. -/
def scrollGo (h : Nat → Nat) : Nat → Nat → Nat → Nat
  | 0, count, _ => count
  | fuel + 1, count, last =>
    let newHeight := h count
    let count' := count + 1
    if newHeight = last ∧ 3 ≤ count' then count'
    else scrollGo h fuel count' newHeight

/-- The scroll loop with its hard ceiling `maxScrolls = 50`. -/
def scrollLoop (hInit : Nat) (h : Nat → Nat) : Nat :=
  scrollGo h 50 0 hInit

/-! ## scraper.js `adaptiveDelay`: the rate limiter -/

/-- Embeds the delay computation of `adaptiveDelay` (scraper.js lines 50–76)
over exact rationals.  `r1, r2 ∈ [0,1)` stand for the two `Math.random()`
draws; `timeSince` is `Date.now() - requestStats.lastRequestTime`. -/
def adaptiveDelayTime (baseDelay : ℚ) (consecutiveRequests failedRequests : ℕ)
    (timeSince : ℚ) (r1 r2 : ℚ) : ℚ :=
  let d0 := if 5 < consecutiveRequests then
      baseDelay * (1 + ((consecutiveRequests : ℚ) - 5) * 0.2)
    else baseDelay
  let d1 := d0 + r1 * 1000
  let d2 := if timeSince < 1000 then d1 + (1000 + r2 * 2000) else d1
  d2 + (failedRequests : ℚ) * 1000

/-! ## scraper.js `getProductDetails`: maker discovery, sort and cap -/

/-- One `a[href^="/@"]`-candidate link on the product page, with its text and
whether a "Maker" badge sits near it. -/
structure MakerLink where
  href : String
  text : String
  hasBadge : Bool
deriving DecidableEq

/-- A maker as collected by `getProductDetails` (scraper.js lines 798–824). -/
structure PMaker where
  url : String
  name : String
  isMaker : Bool
deriving DecidableEq

/-- One step of the maker-collection loop: require a `'/@'` href, deduplicate
by full URL, and push when the profile is badge-confirmed or the collected
list is still under the per-product cap. -/
def collectStep (cap : Nat) (st : List PMaker × List String) (el : MakerLink) :
    List PMaker × List String :=
  if el.href ≠ "" ∧ startsWithStr el.href "/@" = true then
    let full := "https://www.producthunt.com" ++ el.href
    if st.2.contains full = true then st
    else if el.hasBadge = true ∨ st.1.length < cap then
      (st.1 ++ [⟨full, el.text, el.hasBadge⟩], st.2 ++ [full])
    else (st.1, st.2 ++ [full])
  else st

/-- The collected makers of one product page, in page order. -/
def collectMakers (cap : Nat) (links : List MakerLink) : List PMaker :=
  (links.foldl (collectStep cap) ([], [])).1

/-- The sort at scraper.js lines 827–831: `makers.sort` with a comparator that
orders badge-confirmed makers first and returns `0` otherwise.  ES2019
`Array.prototype.sort` is stable, and for this two-class comparator the unique
stable result is the confirmed block followed by the unconfirmed block, each
in page order. -/
def sortMakers (ms : List PMaker) : List PMaker :=
  ms.filter (fun m => m.isMaker) ++ ms.filter (fun m => !m.isMaker)

/-- `makersToProcess`: the sorted makers truncated to the configured cap. -/
def retainedMakers (cap : Nat) (links : List MakerLink) : List PMaker :=
  (sortMakers (collectMakers cap links)).take cap

/-! ## scraper.js `getProductsFromLeaderboard`: listing extraction -/

/-- One anchor element from the listing page: its href and the name resolved
from its text (falling back to a child heading element). -/
structure ListingEl where
  href : String
  name : String
deriving DecidableEq

/-- A listing entity: product name and absolute URL. -/
structure Product where
  name : String
  url : String
deriving DecidableEq

/-- Base URL prepended to relative product links. -/
def phBase : String := "https://www.producthunt.com"

/-- First pass (scraper.js lines 303–330): elements matching
`a[href^="/products/"]`, kept when both URL and name are non-empty and the
absolute URL is not already present. -/
def pass1Step (acc : List Product) (el : ListingEl) : List Product :=
  if startsWithStr el.href "/products/" = true then
    if el.href ≠ "" ∧ el.name ≠ "" ∧
        (acc.any (fun p => p.url = phBase ++ el.href)) = false then
      acc ++ [⟨el.name, phBase ++ el.href⟩]
    else acc
  else acc

/-- Deduplication pass (scraper.js lines 333–342): keep products whose URL
contains `/products/` and was not seen before. -/
def dedupeStep (st : List Product × List String) (p : Product) :
    List Product × List String :=
  if containsStr p.url "/products/" = true ∧ st.2.contains p.url = false then
    (st.1 ++ [p], st.2 ++ [p.url])
  else st

/-- Generic second pass (scraper.js lines 347–384), run when fewer than 20
products were found: candidates already filtered to non-empty name and URL in
the browser, kept when unseen and containing `/posts/`. -/
def pass2Step (st : List Product × List String) (p : Product) :
    List Product × List String :=
  if st.2.contains p.url = false ∧ containsStr p.url "/posts/" = true then
    (st.1 ++ [p], st.2 ++ [p.url])
  else st

/-- The full listing extraction: `els` are the rendered anchors considered by
the first pass, `gens` the name/url pairs produced by the generic
`page.evaluate` scan. -/
def leaderboardProducts (els : List ListingEl) (gens : List Product) : List Product :=
  let prods := els.foldl pass1Step []
  let st := prods.foldl dedupeStep ([], [])
  if st.1.length < 20 then
    ((gens.filter (fun p => p.name ≠ "" && p.url ≠ "")).foldl pass2Step st).1
  else st.1

/-! ## scraper.js `scrapeProductHunt`: per-product output records -/

/-- A processed maker: the collected profile together with the contact fields
attached after `extractContactInfo`. -/
structure RMaker where
  url : String
  name : String
  isMaker : Bool
  email : String
  xId : String
  linkedinUrl : String
deriving DecidableEq

/-- The `productDetails` value returned by `getProductDetails`. -/
structure ProductDetails where
  productWebsite : String
  makers : List RMaker
  websiteContactInfo : ContactBundle
deriving DecidableEq

/-- Outcome of one `getProductDetails` call as seen by `scrapeProductHunt`:
either the details value or a thrown error. -/
inductive DetailOutcome where
  | ok (d : ProductDetails)
  | err
deriving DecidableEq

/-- One flattened CSV row (scraper.js lines 150–164). -/
structure OutputRecord where
  productName : String
  productUrl : String
  productWebsite : String
  makerName : String
  makerUrl : String
  email : String
  xId : String
  linkedinUrl : String
  websiteEmail : String
  websiteTwitter : String
  websiteLinkedin : String
  websiteContactPage : String
  extractedDate : String
deriving DecidableEq

/-- Record built for one maker of a product. -/
def makerRecord (p : Product) (d : ProductDetails) (date : String) (m : RMaker) :
    OutputRecord :=
  { productName := p.name
    productUrl := p.url
    productWebsite := jsOr d.productWebsite ""
    makerName := jsOr m.name ""
    makerUrl := jsOr m.url ""
    email := jsOr m.email ""
    xId := jsOr m.xId ""
    linkedinUrl := jsOr m.linkedinUrl ""
    websiteEmail := jsOr d.websiteContactInfo.email ""
    websiteTwitter := jsOr d.websiteContactInfo.twitter ""
    websiteLinkedin := jsOr d.websiteContactInfo.linkedin ""
    websiteContactPage := jsOr d.websiteContactInfo.website ""
    extractedDate := date }

/-- Record built when a product resolved but no makers were found
(scraper.js lines 171–185). -/
def noMakerRecord (p : Product) (d : ProductDetails) (date : String) : OutputRecord :=
  { productName := p.name
    productUrl := p.url
    productWebsite := jsOr d.productWebsite ""
    makerName := ""
    makerUrl := ""
    email := ""
    xId := ""
    linkedinUrl := ""
    websiteEmail := jsOr d.websiteContactInfo.email ""
    websiteTwitter := jsOr d.websiteContactInfo.twitter ""
    websiteLinkedin := jsOr d.websiteContactInfo.linkedin ""
    websiteContactPage := jsOr d.websiteContactInfo.website ""
    extractedDate := date }

/-- Record built when `getProductDetails` threw (scraper.js lines 197–211). -/
def errorRecord (p : Product) (date : String) : OutputRecord :=
  { productName := p.name
    productUrl := p.url
    productWebsite := ""
    makerName := ""
    makerUrl := ""
    email := ""
    xId := ""
    linkedinUrl := ""
    websiteEmail := ""
    websiteTwitter := ""
    websiteLinkedin := ""
    websiteContactPage := ""
    extractedDate := date }

/-- The records appended for one processed product (scraper.js lines 139–215):
on success one record per maker of `makers.slice(0, maxMakersPerProduct)` in
order, or a single empty-maker record when none resolved; on a thrown error a
single record with empty detail fields. -/
def recordsForProduct (cap : Nat) (date : String) (p : Product) (oc : DetailOutcome) :
    List OutputRecord :=
  match oc with
  | .err => [errorRecord p date]
  | .ok d =>
    let limited := d.makers.take cap
    match limited with
    | [] => [noMakerRecord p d date]
    | _ :: _ => limited.map (makerRecord p d date)

/-! ## Page accounting: a state-and-exception monad counting open pages -/

/-- Computations over the browser session, tracking the number of open pages
and propagating thrown navigation errors. -/
def NavM (α : Type) : Type := Nat → Except Unit α × Nat

instance : Monad NavM where
  pure a := fun s => (Except.ok a, s)
  bind m f := fun s =>
    match m s with
    | (Except.ok a, s') => f a s'
    | (Except.error e, s') => (Except.error e, s')

/-- `browser.newPage()`. -/
def openPage : NavM Unit := fun s => (Except.ok (), s + 1)

/-- `page.close()`. -/
def closePage : NavM Unit := fun s => (Except.ok (), s - 1)

/-- A navigation (or evaluation) step that throws when its oracle says so. -/
def navStep (throws : Bool) : NavM Unit :=
  fun s => (if throws then Except.error () else Except.ok (), s)

/-- A computation that rethrows, as in `catch (error) { throw error; }`. -/
def rethrow : NavM Unit := fun s => (Except.error (), s)

/-- JS `try { body } catch { handler }`. -/
def tryCatch {α : Type} (body handler : NavM α) : NavM α := fun s =>
  match body s with
  | (Except.ok a, s') => (Except.ok a, s')
  | (Except.error _, s') => handler s'

/-- JS `try { body } finally { fin }`: `fin` always runs and, when it
completes normally, the body's completion (value or exception) stands. -/
def tryFinally {α : Type} (body : NavM α) (fin : NavM Unit) : NavM α := fun s =>
  match body s with
  | (Except.ok a, s') =>
    match fin s' with
    | (Except.ok _, s'') => (Except.ok a, s'')
    | (Except.error e, s'') => (Except.error e, s'')
  | (Except.error e, s') =>
    match fin s' with
    | (Except.ok _, s'') => (Except.error e, s'')
    | (Except.error e', s'') => (Except.error e', s'')

/-- Strategy 2's redirect follow (scraper.js lines 494–521): the page is
opened inside a `try` whose `catch` only logs — there is no `finally`, so the
`close` on the success path is the only release. -/
def followRedirectUnit (gotoThrows : Bool) : NavM Unit :=
  tryCatch (do openPage; navStep gotoThrows; closePage) (pure ())

/-- `extractContactInfo` (contactExtractor.js): page opened before the `try`,
errors absorbed by `catch`, page closed in `finally`. -/
def extractContactInfoUnit (gotoThrows : Bool) : NavM Unit := do
  openPage
  tryFinally (tryCatch (navStep gotoThrows) (pure ())) closePage

/-- `extractWebsiteContactInfo` (websiteContactExtractor.js): same shape. -/
def extractWebsiteContactInfoUnit (navThrows : Bool) : NavM Unit := do
  openPage
  tryFinally (tryCatch (navStep navThrows) (pure ())) closePage

/-- `getProductsFromLeaderboard` (scraper.js lines 236–394): the `catch`
rethrows, the `finally` closes the page. -/
def getProductsFromLeaderboardUnit (gotoThrows : Bool) : NavM Unit := do
  openPage
  tryFinally (tryCatch (navStep gotoThrows) rethrow) closePage

/-- Sequence a unit over a list of per-call failure flags. -/
def unitsSeq (f : Bool → NavM Unit) : List Bool → NavM Unit
  | [] => pure ()
  | b :: bs => do f b; unitsSeq f bs

/-- Failure oracle for one `getProductDetails` call. -/
structure DetailOracle where
  /-- Whether the main product-page navigation throws. -/
  mainGotoThrows : Bool
  /-- Whether strategy 1 produced a non-empty URL (skipping strategy 2). -/
  strategy1Found : Bool
  /-- Whether a Product Hunt redirect link is present on the page. -/
  redirectPresent : Bool
  /-- Whether the redirect-follow navigation throws. -/
  redirectGotoThrows : Bool
  /-- Whether a website was found, triggering website-mode extraction. -/
  websiteFound : Bool
  /-- Failure flags of the website-extraction attempts (retry loop). -/
  websiteAttemptThrows : List Bool
  /-- Failure flags of the per-maker profile extractions. -/
  makerGotoThrows : List Bool
deriving DecidableEq

/-- Page accounting of `getProductDetails` (scraper.js lines 397–873): the
product page is opened before the `try` and closed in `finally`; the redirect
page, the website-extraction pages and the maker-profile pages are handled by
the units above inside the `try`. -/
def getProductDetailsUnit (o : DetailOracle) : NavM Unit := do
  openPage
  tryFinally
    (tryCatch
      (do
        navStep o.mainGotoThrows
        if o.strategy1Found = false ∧ o.redirectPresent = true then
          followRedirectUnit o.redirectGotoThrows
        else pure ()
        if o.websiteFound then unitsSeq extractWebsiteContactInfoUnit o.websiteAttemptThrows
        else pure ()
        unitsSeq extractContactInfoUnit o.makerGotoThrows)
      (pure ()))
    closePage

/-- Run a page-accounting computation from a given number of open pages,
returning the number open afterwards. -/
def runPages {α : Type} (m : NavM α) (s : Nat) : Nat := (m s).2

/-! ## Concrete sample inputs used by witnesses and end-to-end conjuncts -/

/-- A product page whose "visit" button scan succeeds immediately. -/
def samplePageA : ProductPage :=
  { visitUrl := "https://alpha.example"
    redirectLinks := []
    redirectGotoThrows := false
    redirectFinalUrl := ""
    getItUrl := ""
    externalUrl := ""
    patternUrl := ""
    bebopMentions := 0
    bebopLinkTops := []
    emailDomains := [] }

/-- A product page where strategies 1 and 2 come up empty (the redirect
resolves back to the source site) and strategy 3 succeeds. -/
def samplePageB : ProductPage :=
  { visitUrl := ""
    redirectLinks := ["https://www.producthunt.com/r/abc"]
    redirectGotoThrows := false
    redirectFinalUrl := "https://www.producthunt.com/posts/xyz"
    getItUrl := "https://beta.example"
    externalUrl := ""
    patternUrl := ""
    bebopMentions := 0
    bebopLinkTops := []
    emailDomains := [] }

/-- A product page whose text-pattern scan hits `bebop.ai` with only two
textual mentions and no header-area link. -/
def bebopPage : ProductPage :=
  { visitUrl := ""
    redirectLinks := []
    redirectGotoThrows := false
    redirectFinalUrl := ""
    getItUrl := ""
    externalUrl := ""
    patternUrl := "https://bebop.ai"
    bebopMentions := 2
    bebopLinkTops := []
    emailDomains := [] }

/-- The failing input for the page-release claim: strategy 1 empty, a
redirect link present, and the redirect navigation throwing. -/
def leakOracle : DetailOracle :=
  { mainGotoThrows := false
    strategy1Found := false
    redirectPresent := true
    redirectGotoThrows := true
    websiteFound := false
    websiteAttemptThrows := []
    makerGotoThrows := [] }

/-- Same call with the redirect navigation succeeding, plus failing and
succeeding extraction sub-calls: everything balances. -/
def cleanOracle : DetailOracle :=
  { mainGotoThrows := false
    strategy1Found := false
    redirectPresent := true
    redirectGotoThrows := false
    websiteFound := true
    websiteAttemptThrows := [true, false]
    makerGotoThrows := [false, true, false] }

/-- A one-element listing page. -/
def demoEls : List ListingEl := [⟨"/products/foo", "Foo"⟩]

/-- The product the one-element listing yields. -/
def demoProduct1 : Product := ⟨"Foo", "https://www.producthunt.com/products/foo"⟩

/-- Details with zero resolved makers. -/
def demoDetails0 : ProductDetails :=
  { productWebsite := "", makers := [], websiteContactInfo := ⟨"", "", "", ""⟩ }

/-- A 2-maker product page in page order [unconfirmed Alice, confirmed Bob]. -/
def demoMakerLinks : List MakerLink :=
  [⟨"/@alice", "Alice", false⟩, ⟨"/@bob", "Bob", true⟩]

/-- The 2-maker demo product. -/
def demoProduct2 : Product := ⟨"Demo", "https://www.producthunt.com/products/demo"⟩

/-- Details of the 2-maker demo product, makers in retained (sorted) order. -/
def demoDetails2 : ProductDetails :=
  { productWebsite := "https://demo.example"
    makers :=
      [⟨"https://www.producthunt.com/@bob", "Bob", true, "bob@demo.example", "", ""⟩,
       ⟨"https://www.producthunt.com/@alice", "Alice", false, "", "", ""⟩]
    websiteContactInfo := ⟨"", "", "", ""⟩ }

/-! ## Helper lemmas -/

theorem mk_ne_empty {l : List Char} (h : l ≠ []) : String.mk l ≠ "" := by
  intro he
  have h0 : l.length = 0 := congrArg String.length he
  exact h (List.length_eq_zero.mp h0)

theorem phBase_append_ne (s : String) : phBase ++ s ≠ "" := by
  intro h
  have hl := congrArg String.length h
  rw [String.length_append] at hl
  simp at hl
  exact absurd hl.1 (by decide)

theorem foldl_inv_mem {α σ : Type _} (P : σ → Prop) (Q : α → Prop) (step : σ → α → σ)
    (hstep : ∀ s a, Q a → P s → P (step s a)) :
    ∀ (l : List α), (∀ a ∈ l, Q a) → ∀ s, P s → P (l.foldl step s) := by
  intro l
  induction l with
  | nil => intro _ s h; exact h
  | cons x xs ih =>
    intro hq s h
    exact ih (fun a ha => hq a (List.mem_cons_of_mem _ ha)) _
      (hstep s x (hq x (List.mem_cons_self _ _)) h)

theorem pairwise_of_mem {α : Type _} {R : α → α → Prop} :
    ∀ (l : List α), (∀ a ∈ l, ∀ b ∈ l, R a b) → l.Pairwise R := by
  intro l
  induction l with
  | nil => intro _; exact List.Pairwise.nil
  | cons x xs ih =>
    intro h
    exact List.Pairwise.cons
      (fun b hb => h x (List.mem_cons_self _ _) b (List.mem_cons_of_mem _ hb))
      (ih (fun a ha b hb => h a (List.mem_cons_of_mem _ ha) b (List.mem_cons_of_mem _ hb)))

theorem jsOr_eq_precedence (a b c : String) :
    jsOr a (jsOr b (jsOr c "")) = mergePrecedenceSpec a b c := by
  unfold jsOr mergePrecedenceSpec
  split_ifs <;> simp_all

theorem pageSourceEmailFallback_of_ne {merged : ContactBundle} (src : List String)
    (h : merged.email ≠ "") : pageSourceEmailFallback merged src = merged := by
  unfold pageSourceEmailFallback
  rw [if_neg h]

/-! ## Claim theorems -/

/-- Claim C2: website-mode contact extraction merges its three per-page passes
field-by-field with first-non-empty-wins precedence
contact page > footer (post-scroll) > initial load; in particular a contact
page with empty email, a footer pass with "a@b.com" and an initial pass with
"c@d.com" yield final email "a@b.com" (the page-source fallback, which only
fires on an empty merged email, cannot override it). -/
theorem c2_merge_precedence :
    (∀ contactPage footer initial : ContactBundle,
      mergedContactInfo contactPage footer initial =
        { email := mergePrecedenceSpec contactPage.email footer.email initial.email
          twitter := mergePrecedenceSpec contactPage.twitter footer.twitter initial.twitter
          linkedin := mergePrecedenceSpec contactPage.linkedin footer.linkedin initial.linkedin
          website := mergePrecedenceSpec contactPage.website footer.website initial.website }) ∧
    (∀ sourceEmails : List String,
      (pageSourceEmailFallback
        (mergedContactInfo ⟨"", "", "", ""⟩ ⟨"a@b.com", "", "", ""⟩ ⟨"c@d.com", "", "", ""⟩)
        sourceEmails).email = "a@b.com") := by
  constructor
  · intro c f i
    unfold mergedContactInfo
    rw [jsOr_eq_precedence, jsOr_eq_precedence, jsOr_eq_precedence, jsOr_eq_precedence]
  · intro src
    have hm : (mergedContactInfo ⟨"", "", "", ""⟩ ⟨"a@b.com", "", "", ""⟩
        ⟨"c@d.com", "", "", ""⟩).email = "a@b.com" := by decide
    rw [pageSourceEmailFallback_of_ne src (by rw [hm]; decide), hm]

/-- Claim C4 (code bug): the page opened to follow a redirect link in website
discovery strategy 2 is closed only on the success path of the inner `try`;
when the redirect navigation throws, the `catch` merely logs and the page
leaks, so `getProductDetails` ends with one more page open than it started
with.  All other navigation units (and the same call without the redirect
failure) balance their page counts on every exit path. -/
theorem c4_redirect_page_leak :
    runPages (getProductDetailsUnit leakOracle) 0 = 1 ∧
    runPages (getProductDetailsUnit cleanOracle) 0 = 0 ∧
    runPages (getProductsFromLeaderboardUnit true) 0 = 0 ∧
    runPages (getProductsFromLeaderboardUnit false) 0 = 0 ∧
    runPages (extractContactInfoUnit true) 0 = 0 ∧
    runPages (extractWebsiteContactInfoUnit true) 0 = 0 := by
  decide

/-- Claim C8: with identical counter state and base delay and for every value
of the random jitter draws, the delay computed after a 200ms gap exceeds the
delay computed after a 5s gap by at least the 1000ms fast-gap penalty, hence
is strictly larger. -/
theorem c8_rate_limiter_monotone (baseDelay : ℚ) (consecutiveRequests failedRequests : ℕ)
    (r1 r2 : ℚ) (_h1 : 0 ≤ r1) (_h2 : r1 < 1) (h3 : 0 ≤ r2) (_h4 : r2 < 1) :
    adaptiveDelayTime baseDelay consecutiveRequests failedRequests 5000 r1 r2 + 1000 ≤
      adaptiveDelayTime baseDelay consecutiveRequests failedRequests 200 r1 r2 ∧
    adaptiveDelayTime baseDelay consecutiveRequests failedRequests 5000 r1 r2 <
      adaptiveDelayTime baseDelay consecutiveRequests failedRequests 200 r1 r2 := by
  have hr2 : 0 ≤ r2 * 2000 := by positivity
  have ha : (200 : ℚ) < 1000 := by norm_num
  have hb : ¬((5000 : ℚ) < 1000) := by norm_num
  refine ⟨?_, ?_⟩ <;>
    · simp only [adaptiveDelayTime]
      rw [if_pos ha, if_neg hb]
      split_ifs with hc <;> linarith

/-- Witness for C8 at concrete inputs. -/
theorem c8_rate_limiter_monotone_witness :
    ((0:ℚ) ≤ 0 ∧ (0:ℚ) < 1) ∧
    (adaptiveDelayTime 2000 0 0 5000 0 0 + 1000 ≤ adaptiveDelayTime 2000 0 0 200 0 0 ∧
     adaptiveDelayTime 2000 0 0 5000 0 0 < adaptiveDelayTime 2000 0 0 200 0 0) :=
  ⟨⟨le_refl 0, by norm_num⟩,
   c8_rate_limiter_monotone 2000 0 0 0 0 (le_refl 0) (by norm_num) (le_refl 0) (by norm_num)⟩

/-- Claim C9: profile-mode Twitter handle extraction returns the trailing path
segment after stripping query parameters, fragments and a trailing slash, and
returns the empty string when that segment contains a dot or equals the bare
domain; in particular `"https://x.com/acme_io?ref=ph"` yields `"acme_io"` and
`"https://x.com/"` yields `""`. -/
theorem c9_twitter_handle_extraction :
    (∀ url : String, extractTwitterHandle url = twitterHandleSpec url) ∧
    extractTwitterHandle "https://x.com/acme_io?ref=ph" = "acme_io" ∧
    extractTwitterHandle "https://x.com/" = "" := by
  refine ⟨?_, by decide, by decide⟩
  intro url
  by_cases hu : url = ""
  · subst hu; decide
  · unfold extractTwitterHandle twitterHandleSpec
    rw [if_neg hu]
    dsimp only
    set seg := lastSegment (stripUrl url.toList) with hseg
    split_ifs with hcode hspec hspec
    · rcases hspec with hc | he | he
      · rw [hcode.2.1] at hc; exact absurd hc (by decide)
      · exact absurd he hcode.2.2.1
      · exact absurd he hcode.2.2.2
    · rfl
    · rfl
    · push_neg at hspec
      have hdot : seg.contains '.' = false := by
        cases h : seg.contains '.' with
        | true => exact absurd h hspec.1
        | false => rfl
      have hnil : seg = [] := by
        by_contra hne
        exact hcode ⟨hne, hdot, hspec.2.1, hspec.2.2⟩
      rw [hnil]

theorem scrollGo_le (h : Nat → Nat) :
    ∀ (fuel count last : Nat), scrollGo h fuel count last ≤ count + fuel := by
  intro fuel
  induction fuel with
  | zero => intro count last; simp [scrollGo]
  | succ n ih =>
    intro count last
    simp only [scrollGo]
    split_ifs with hb
    · omega
    · calc scrollGo h n (count + 1) (h count) ≤ (count + 1) + n := ih _ _
        _ = count + (n + 1) := by omega

theorem scrollGo_stop (hInit : Nat) (h : Nat → Nat) :
    ∀ (fuel count last : Nat),
      count + fuel = 50 →
      ((count = 0 ∧ last = hInit) ∨ (1 ≤ count ∧ last = h (count - 1))) →
      scrollGo h fuel count last < 50 →
      3 ≤ scrollGo h fuel count last ∧
        h (scrollGo h fuel count last - 1) = h (scrollGo h fuel count last - 2) := by
  intro fuel
  induction fuel with
  | zero =>
    intro count last h50 _ hlt
    simp only [scrollGo] at hlt
    exact absurd hlt (by omega)
  | succ n ih =>
    intro count last h50 hinv hlt
    simp only [scrollGo] at hlt ⊢
    split_ifs at hlt ⊢ with hb
    · refine ⟨hb.2, ?_⟩
      have hc2 : 2 ≤ count := by omega
      rcases hinv with ⟨h0, _⟩ | ⟨_, hlast⟩
      · omega
      · have e1 : count + 1 - 1 = count := by omega
        have e2 : count + 1 - 2 = count - 1 := by omega
        rw [e1, e2, hb.1, hlast]
    · exact ih (count + 1) (h count) (by omega) (Or.inr ⟨by omega, by simp⟩) hlt

/-- Claim C7: the listing-page scroll loop performs at most 50 iterations for
every sequence of observed heights, and it stops earlier only after at least
3 iterations with the height unchanged between the last two consecutive
observations. -/
theorem c7_scroll_termination (hInit : Nat) (h : Nat → Nat) :
    scrollLoop hInit h ≤ 50 ∧
    (scrollLoop hInit h < 50 →
      3 ≤ scrollLoop hInit h ∧
        h (scrollLoop hInit h - 1) = h (scrollLoop hInit h - 2)) := by
  constructor
  · simpa [scrollLoop] using scrollGo_le h 50 0 hInit
  · intro hlt
    have hs := scrollGo_stop hInit h 50 0 hInit (by omega) (Or.inl ⟨rfl, rfl⟩)
      (by simpa [scrollLoop] using hlt)
    simpa [scrollLoop] using hs

/-- Witness for C7 on a height sequence that stabilizes immediately. -/
theorem c7_scroll_termination_witness :
    scrollLoop 100 (fun _ => 100) < 50 ∧
    (3 ≤ scrollLoop 100 (fun _ => 100) ∧
      (fun _ => 100 : Nat → Nat) (scrollLoop 100 (fun _ => 100) - 1) =
        (fun _ => 100 : Nat → Nat) (scrollLoop 100 (fun _ => 100) - 2)) :=
  ⟨by decide, (c7_scroll_termination 100 (fun _ => 100)).2 (by decide)⟩

/-- Claim C3: in website-discovery strategy 5, a candidate URL on the
denylisted `bebop.ai` domain is rejected when the corroboration threshold is
not met: with fewer than 3 textual mentions (and fewer than 2 header-area
links) the strategy yields an empty website. -/
theorem c3_bebop_denylist_rejection (p : ProductPage)
    (hurl : p.patternUrl ≠ "")
    (hbebop : containsStr (lowerStr p.patternUrl) "bebop.ai" = true)
    (hment : p.bebopMentions < 3)
    (_hhdr : (p.bebopLinkTops.filter (fun t => t < 300)).length < 2) :
    strategy5 p = "" := by
  have hreal : isBebopRealWebsite p = false := by
    unfold isBebopRealWebsite
    rw [if_pos hment]
  simp only [strategy5]
  rw [if_neg hurl, if_pos hbebop, hreal]
  simp

/-- Witness for C3: a page mentioning bebop.ai twice with no header link. -/
theorem c3_bebop_denylist_rejection_witness :
    (bebopPage.patternUrl ≠ "" ∧
     containsStr (lowerStr bebopPage.patternUrl) "bebop.ai" = true ∧
     bebopPage.bebopMentions < 3 ∧
     (bebopPage.bebopLinkTops.filter (fun t => t < 300)).length < 2) ∧
    strategy5 bebopPage = "" :=
  ⟨⟨by decide, by decide, by decide, by decide⟩,
   c3_bebop_denylist_rejection bebopPage (by decide) (by decide) (by decide) (by decide)⟩

/-- Counterexample to claim C10 as stated: for `"/?q=x.com"` the portion
before the `'?'` is the non-empty `"/"`, a listed domain occurs in the query
string, and stripping the trailing slash leaves the empty string, which the
final fallback then returns. -/
theorem c10_social_handle_counterexample :
    takeBeforeChar '#' (takeBeforeChar '?' "/?q=x.com".toList) ≠ [] ∧
    extractSocialHandle "/?q=x.com" ["twitter.com", "x.com"] = "" :=
  ⟨by decide, by decide⟩

/-- Claim C10 (amended): website-mode social-handle extraction returns a
non-empty string for every URL whose portion before any `'?'` or `'#'` is
non-empty *and stays non-empty after removing one trailing slash*; when the
URL contains none of the given domains the input is returned unchanged. -/
theorem c10_social_handle_nonempty (url : String) (domains : List String)
    (hpre : takeBeforeChar '#' (takeBeforeChar '?' url.toList) ≠ [])
    (hslash : dropTrailingSlash (takeBeforeChar '#' (takeBeforeChar '?' url.toList)) ≠ []) :
    extractSocialHandle url domains ≠ "" ∧
    ((domains.any (fun d => containsStr url d)) = false →
      extractSocialHandle url domains = url) := by
  have hu : url ≠ "" := by
    intro h
    apply hpre
    rw [h]
    decide
  unfold extractSocialHandle
  rw [if_neg hu]
  by_cases hd : (domains.any (fun d => containsStr url d)) = false
  · rw [if_pos hd]
    exact ⟨hu, fun _ => rfl⟩
  · rw [if_neg hd]
    dsimp only
    constructor
    · split_ifs with hh
      · exact mk_ne_empty hh.1
      · exact mk_ne_empty hslash
    · intro hfalse
      exact absurd hfalse hd

/-- Witness for the amended C10. -/
theorem c10_social_handle_nonempty_witness :
    (takeBeforeChar '#' (takeBeforeChar '?' "https://x.com/acme".toList) ≠ [] ∧
     dropTrailingSlash (takeBeforeChar '#' (takeBeforeChar '?' "https://x.com/acme".toList)) ≠ []) ∧
    (extractSocialHandle "https://x.com/acme" ["twitter.com", "x.com"] ≠ "" ∧
     ((["twitter.com", "x.com"].any (fun d => containsStr "https://x.com/acme" d)) = false →
       extractSocialHandle "https://x.com/acme" ["twitter.com", "x.com"] = "https://x.com/acme")) :=
  ⟨⟨by decide, by decide⟩,
   c10_social_handle_nonempty "https://x.com/acme" ["twitter.com", "x.com"] (by decide) (by decide)⟩

/-- Claim C1: the website cascade invokes strategy `k` only when strategies
`1..k-1` all returned an empty URL, and when strategy 1 (the "visit" scan)
yields a URL it is the final result and strategy 2 (the redirect follow) is
never invoked. -/
theorem c1_cascade_priority_order (p : ProductPage) :
    (∀ k ∈ (websiteCascade p).2, ∀ j, 1 ≤ j → j < k → strategyResult j p = "") ∧
    (strategyResult 1 p ≠ "" →
      (websiteCascade p).1 = strategyResult 1 p ∧ 2 ∉ (websiteCascade p).2) := by
  by_cases e1 : strategy1 p = ""
  case neg =>
    have hc : websiteCascade p = (strategy1 p, [1]) := by
      simp [websiteCascade, e1]
    rw [hc]
    constructor
    · intro k hk j hj1 hj2
      simp at hk
      exact absurd hj2 (by omega)
    · intro _
      exact ⟨rfl, by simp⟩
  case pos =>
  by_cases e2 : strategy2 p = ""
  case neg =>
    have hc : websiteCascade p = (strategy2 p, [1, 2]) := by
      simp [websiteCascade, e1, e2]
    rw [hc]
    refine ⟨?_, fun hcontra => absurd e1 hcontra⟩
    intro k hk j hj1 hj2
    simp at hk
    have hj : j = 1 := by omega
    subst hj
    exact e1
  case pos =>
  by_cases e3 : strategy3 p = ""
  case neg =>
    have hc : websiteCascade p = (strategy3 p, [1, 2, 3]) := by
      simp [websiteCascade, e1, e2, e3]
    rw [hc]
    refine ⟨?_, fun hcontra => absurd e1 hcontra⟩
    intro k hk j hj1 hj2
    simp at hk
    have hj : j = 1 ∨ j = 2 := by omega
    rcases hj with rfl | rfl
    · exact e1
    · exact e2
  case pos =>
  by_cases e4 : strategy4 p = ""
  case neg =>
    have hc : websiteCascade p = (strategy4 p, [1, 2, 3, 4]) := by
      simp [websiteCascade, e1, e2, e3, e4]
    rw [hc]
    refine ⟨?_, fun hcontra => absurd e1 hcontra⟩
    intro k hk j hj1 hj2
    simp at hk
    have hj : j = 1 ∨ j = 2 ∨ j = 3 := by omega
    rcases hj with rfl | rfl | rfl
    · exact e1
    · exact e2
    · exact e3
  case pos =>
  by_cases e5 : strategy5 p = ""
  case neg =>
    have hc : websiteCascade p = (strategy5 p, [1, 2, 3, 4, 5]) := by
      simp [websiteCascade, e1, e2, e3, e4, e5]
    rw [hc]
    refine ⟨?_, fun hcontra => absurd e1 hcontra⟩
    intro k hk j hj1 hj2
    simp at hk
    have hj : j = 1 ∨ j = 2 ∨ j = 3 ∨ j = 4 := by omega
    rcases hj with rfl | rfl | rfl | rfl
    · exact e1
    · exact e2
    · exact e3
    · exact e4
  case pos =>
  have hc : websiteCascade p = (strategy6 p, [1, 2, 3, 4, 5, 6]) := by
    simp [websiteCascade, e1, e2, e3, e4, e5]
  rw [hc]
  refine ⟨?_, fun hcontra => absurd e1 hcontra⟩
  intro k hk j hj1 hj2
  simp at hk
  have hj : j = 1 ∨ j = 2 ∨ j = 3 ∨ j = 4 ∨ j = 5 := by omega
  rcases hj with rfl | rfl | rfl | rfl | rfl
  · exact e1
  · exact e2
  · exact e3
  · exact e4
  · exact e5

/-- Witness for C1: on `samplePageB` strategy 3 is invoked with strategies 1
and 2 empty; on `samplePageA` strategy 1 wins and strategy 2 is skipped. -/
theorem c1_cascade_priority_order_witness :
    (3 ∈ (websiteCascade samplePageB).2 ∧ 1 ≤ 2 ∧ 2 < 3 ∧
     strategyResult 1 samplePageA ≠ "") ∧
    (strategyResult 2 samplePageB = "" ∧
     ((websiteCascade samplePageA).1 = strategyResult 1 samplePageA ∧
       2 ∉ (websiteCascade samplePageA).2)) :=
  ⟨⟨by decide, by decide, by decide, by decide⟩,
   ⟨(c1_cascade_priority_order samplePageB).1 3 (by decide) 2 (by decide) (by decide),
    (c1_cascade_priority_order samplePageA).2 (by decide)⟩⟩

/-- Claim C6: retained makers are capped at `maxMakersPerProduct`, every
badge-confirmed maker is ordered before every unconfirmed one, each
confirmation class keeps its page order (its retained subsequence is an
initial segment of the collected, page-ordered class), and the 2-maker demo
product (one confirmed, one unconfirmed, listed unconfirmed-first) yields
output records in the order [confirmed, unconfirmed] sharing the same
productName/productUrl/productWebsite. -/
theorem c6_maker_order_and_cap :
    (∀ (cap : Nat) (links : List MakerLink),
      (retainedMakers cap links).length ≤ cap ∧
      List.Pairwise (fun a b : PMaker => a.isMaker = true ∨ b.isMaker = false)
        (retainedMakers cap links) ∧
      (∃ n, (retainedMakers cap links).filter (fun m => m.isMaker) =
        ((collectMakers cap links).filter (fun m => m.isMaker)).take n) ∧
      (∃ n, (retainedMakers cap links).filter (fun m => !m.isMaker) =
        ((collectMakers cap links).filter (fun m => !m.isMaker)).take n)) ∧
    retainedMakers 3 demoMakerLinks =
      [⟨"https://www.producthunt.com/@bob", "Bob", true⟩,
       ⟨"https://www.producthunt.com/@alice", "Alice", false⟩] ∧
    (recordsForProduct 3 "2025-03-17" demoProduct2 (DetailOutcome.ok demoDetails2)).map
        (fun r => (r.makerName, r.productName, r.productUrl, r.productWebsite)) =
      [("Bob", "Demo", "https://www.producthunt.com/products/demo", "https://demo.example"),
       ("Alice", "Demo", "https://www.producthunt.com/products/demo", "https://demo.example")] := by
  refine ⟨?_, by decide, by decide⟩
  intro cap links
  set A := (collectMakers cap links).filter (fun m => m.isMaker) with hA
  set B := (collectMakers cap links).filter (fun m => !m.isMaker) with hB
  have hr : retainedMakers cap links = A.take cap ++ B.take (cap - A.length) := by
    rw [hA, hB]
    simp only [retainedMakers, sortMakers]
    exact List.take_append_eq_append_take
  have hAmem : ∀ m ∈ A.take cap, m.isMaker = true := fun m hm =>
    List.of_mem_filter (List.take_subset _ _ hm)
  have hBmem : ∀ m ∈ B.take (cap - A.length), m.isMaker = false := fun m hm => by
    simpa using List.of_mem_filter (List.take_subset _ _ hm)
  refine ⟨?_, ?_, ?_, ?_⟩
  · simp only [retainedMakers]
    rw [List.length_take]
    omega
  · rw [hr, List.pairwise_append]
    exact ⟨pairwise_of_mem _ (fun a ha _ _ => Or.inl (hAmem a ha)),
           pairwise_of_mem _ (fun _ _ b hb => Or.inr (hBmem b hb)),
           fun a ha _ _ => Or.inl (hAmem a ha)⟩
  · refine ⟨cap, ?_⟩
    rw [hr, List.filter_append]
    have h1 : (A.take cap).filter (fun m => m.isMaker) = A.take cap :=
      List.filter_eq_self.mpr (fun a ha => by simpa using hAmem a ha)
    have h2 : (B.take (cap - A.length)).filter (fun m => m.isMaker) = [] :=
      List.filter_eq_nil_iff.mpr (fun a ha => by simp [hBmem a ha])
    rw [h1, h2, List.append_nil]
  · refine ⟨cap - A.length, ?_⟩
    rw [hr, List.filter_append]
    have h1 : (A.take cap).filter (fun m => !m.isMaker) = [] :=
      List.filter_eq_nil_iff.mpr (fun a ha => by simp [hAmem a ha])
    have h2 : (B.take (cap - A.length)).filter (fun m => !m.isMaker) =
        B.take (cap - A.length) :=
      List.filter_eq_self.mpr (fun a ha => by simp [hBmem a ha])
    rw [h1, h2, List.nil_append]

theorem leaderboard_fields (els : List ListingEl) (gens : List Product) :
    ∀ p ∈ leaderboardProducts els gens, p.name ≠ "" ∧ p.url ≠ "" := by
  have h1 : ∀ p ∈ els.foldl pass1Step [], p.name ≠ "" ∧ p.url ≠ "" := by
    refine foldl_inv_mem (fun acc => ∀ p ∈ acc, p.name ≠ "" ∧ p.url ≠ "") (fun _ => True)
      pass1Step ?_ els (fun _ _ => trivial) [] (by simp)
    intro acc el _ hacc q hq
    unfold pass1Step at hq
    split_ifs at hq with hsel hcond
    · rcases List.mem_append.mp hq with hq | hq
      · exact hacc q hq
      · rcases List.mem_singleton.mp hq with rfl
        exact ⟨hcond.2.1, phBase_append_ne el.href⟩
    · exact hacc q hq
    · exact hacc q hq
  have h2 : ∀ p ∈ ((els.foldl pass1Step []).foldl dedupeStep ([], [])).1,
      p.name ≠ "" ∧ p.url ≠ "" := by
    refine foldl_inv_mem (fun st : List Product × List String => ∀ p ∈ st.1, p.name ≠ "" ∧ p.url ≠ "")
      (fun p => p.name ≠ "" ∧ p.url ≠ "") dedupeStep ?_ _ h1 ([], []) (by simp)
    intro st a hQ hP q hq
    unfold dedupeStep at hq
    split_ifs at hq with hcond
    · rcases List.mem_append.mp hq with hq | hq
      · exact hP q hq
      · rcases List.mem_singleton.mp hq with rfl
        exact hQ
    · exact hP q hq
  intro p hp
  simp only [leaderboardProducts] at hp
  split_ifs at hp with hlen
  · refine foldl_inv_mem (fun st : List Product × List String => ∀ q ∈ st.1, q.name ≠ "" ∧ q.url ≠ "")
      (fun g => g.name ≠ "" ∧ g.url ≠ "") pass2Step ?_ _ ?_ _ h2 p hp
    · intro st a hQ hP q hq
      unfold pass2Step at hq
      split_ifs at hq with hcond
      · rcases List.mem_append.mp hq with hq | hq
        · exact hP q hq
        · rcases List.mem_singleton.mp hq with rfl
          exact hQ
      · exact hP q hq
    · intro a ha
      have := List.of_mem_filter ha
      simpa using this
  · exact h2 p hp

/-- Claim C5: every product in the processed slice of the listing yields at
least one output record, every record for it carries the product's non-empty
name and URL, and a product resolving with zero makers yields exactly one
record whose maker-related fields are all empty. -/
theorem c5_every_product_yields_record (els : List ListingEl) (gens : List Product)
    (maxProducts cap : Nat) (date : String) (p : Product)
    (hp : p ∈ (leaderboardProducts els gens).take maxProducts) (oc : DetailOutcome) :
    1 ≤ (recordsForProduct cap date p oc).length ∧
    (∀ r ∈ recordsForProduct cap date p oc,
      r.productName = p.name ∧ r.productName ≠ "" ∧
      r.productUrl = p.url ∧ r.productUrl ≠ "") ∧
    (∀ d, oc = DetailOutcome.ok d → d.makers.take cap = [] →
      recordsForProduct cap date p oc = [noMakerRecord p d date] ∧
      (noMakerRecord p d date).makerName = "" ∧
      (noMakerRecord p d date).makerUrl = "" ∧
      (noMakerRecord p d date).email = "" ∧
      (noMakerRecord p d date).xId = "" ∧
      (noMakerRecord p d date).linkedinUrl = "") := by
  have hnp := leaderboard_fields els gens p (List.take_subset _ _ hp)
  rcases oc with d | _
  · by_cases hm : d.makers.take cap = []
    · have hrec : recordsForProduct cap date p (DetailOutcome.ok d) = [noMakerRecord p d date] := by
        simp only [recordsForProduct]
        rw [hm]
      refine ⟨by rw [hrec]; simp, ?_, ?_⟩
      · intro r hr
        rw [hrec] at hr
        rcases List.mem_singleton.mp hr with rfl
        exact ⟨rfl, hnp.1, rfl, hnp.2⟩
      · intro d' hd' _
        have hdd : d = d' := by injection hd'
        subst hdd
        exact ⟨hrec, rfl, rfl, rfl, rfl, rfl⟩
    · have hrec : recordsForProduct cap date p (DetailOutcome.ok d) =
          (d.makers.take cap).map (makerRecord p d date) := by
        simp only [recordsForProduct]
        cases h : d.makers.take cap with
        | nil => exact absurd h hm
        | cons x xs => rfl
      refine ⟨?_, ?_, ?_⟩
      · rw [hrec, List.length_map]
        have := List.length_pos.mpr hm
        omega
      · intro r hr
        rw [hrec] at hr
        rcases List.mem_map.mp hr with ⟨m, _, rfl⟩
        exact ⟨rfl, hnp.1, rfl, hnp.2⟩
      · intro d' hd' h0
        have hdd : d = d' := by injection hd'
        subst hdd
        exact absurd h0 hm
  · refine ⟨by simp [recordsForProduct], ?_, ?_⟩
    · intro r hr
      simp only [recordsForProduct] at hr
      rcases List.mem_singleton.mp hr with rfl
      exact ⟨rfl, hnp.1, rfl, hnp.2⟩
    · intro d' hd'
      exact DetailOutcome.noConfusion hd'

/-- Witness for C5: a one-product listing whose product resolves with zero
makers yields exactly the single empty-maker record. -/
theorem c5_every_product_yields_record_witness :
    (demoProduct1 ∈ (leaderboardProducts demoEls []).take 30 ∧
     demoDetails0.makers.take 3 = []) ∧
    (1 ≤ (recordsForProduct 3 "2025-03-17" demoProduct1 (DetailOutcome.ok demoDetails0)).length ∧
     recordsForProduct 3 "2025-03-17" demoProduct1 (DetailOutcome.ok demoDetails0) =
       [noMakerRecord demoProduct1 demoDetails0 "2025-03-17"]) :=
  ⟨⟨by decide, by decide⟩,
   ⟨(c5_every_product_yields_record demoEls [] 30 3 "2025-03-17" demoProduct1 (by decide)
       (DetailOutcome.ok demoDetails0)).1,
    ((c5_every_product_yields_record demoEls [] 30 3 "2025-03-17" demoProduct1 (by decide)
       (DetailOutcome.ok demoDetails0)).2.2 demoDetails0 rfl (by decide)).1⟩⟩

end PHScraper
